import Mathlib

/-!
# Shallow embedding of the 2D black-hole light-ray simulation

This file embeds the core data model and operations of `src/BlackHole.cpp`
into Lean 4 and proves the spec's claims about them.  Machine floats are
modelled by exact real arithmetic over `ℝ`; `std::sqrt` becomes `Real.sqrt`.
Source symbols keep their C++ names (`Vector2f`, `BlackHole`, `LightRay`,
`BlackHoleSimulation`, `spawnLightRay`, `update`, `isOffScreen`, ...).
-/

/-- Window width constant, `WINDOW_WIDTH = 1200` in the source. -/
def WINDOW_WIDTH : ℝ := 1200

/-- Window height constant, `WINDOW_HEIGHT = 800` in the source. -/
def WINDOW_HEIGHT : ℝ := 800

/-- The 2D float vector of the source (`struct Vector2f`), over `ℝ`. -/
structure Vector2f where
  x : ℝ
  y : ℝ

/-- Componentwise addition, `Vector2f::operator+`. -/
def Vector2f.add (a b : Vector2f) : Vector2f :=
  ⟨a.x + b.x, a.y + b.y⟩

/-- Componentwise subtraction, `Vector2f::operator-`. -/
def Vector2f.sub (a b : Vector2f) : Vector2f :=
  ⟨a.x - b.x, a.y - b.y⟩

/-- Scalar multiplication, `Vector2f::operator*`. -/
def Vector2f.smul (a : Vector2f) (scalar : ℝ) : Vector2f :=
  ⟨a.x * scalar, a.y * scalar⟩

/-- Euclidean magnitude, `Vector2f::magnitude`: `sqrt(x*x + y*y)`. -/
noncomputable def Vector2f.magnitude (v : Vector2f) : ℝ :=
  Real.sqrt (v.x * v.x + v.y * v.y)

/-- Normalization, `Vector2f::normalized`: divides by the magnitude when it
is positive and returns the zero vector otherwise. -/
noncomputable def Vector2f.normalized (v : Vector2f) : Vector2f :=
  if v.magnitude > 0 then ⟨v.x / v.magnitude, v.y / v.magnitude⟩
  else ⟨0, 0⟩

/-- An RGB color tag (`sf::Color`); only the palette identity matters. -/
structure Color where
  r : ℕ
  g : ℕ
  b : ℕ
deriving DecidableEq

def colorRed : Color := ⟨255, 0, 0⟩

def colorGreen : Color := ⟨0, 255, 0⟩

def colorBlue : Color := ⟨0, 0, 255⟩

def colorYellow : Color := ⟨255, 255, 0⟩

def colorMagenta : Color := ⟨255, 0, 255⟩

def colorCyan : Color := ⟨0, 255, 255⟩

def colorWhite : Color := ⟨255, 255, 255⟩

/-- The fixed spawn palette of `BlackHoleSimulation::spawnLightRay`. -/
def colors : List Color :=
  [colorRed, colorGreen, colorBlue, colorYellow, colorMagenta, colorCyan, colorWhite]

/-- The gravity source (`class BlackHole`): position, mass and the derived
capture radius. -/
structure BlackHole where
  position : Vector2f
  mass : ℝ
  schwarzschildRadius : ℝ

/-- The `BlackHole` constructor: `schwarzschildRadius = mass * 0.01f`. -/
def mkBlackHole (pos : Vector2f) (m : ℝ) : BlackHole :=
  { position := pos, mass := m, schwarzschildRadius := m * 0.01 }

/-- A light ray (`class LightRay`): recorded path, current position and
velocity, color tag, frozen impact parameter and the terminal flag. -/
structure LightRay where
  path : List Vector2f
  currentPosition : Vector2f
  currentVelocity : Vector2f
  color : Color
  impactParameter : ℝ
  absorbed : Bool

/-- The `LightRay` constructor: records the start point as the first path
point and freezes `impactParameter = |startPos.y - WINDOW_HEIGHT / 2.0f|`
(the window's mid-height, not any particular gravity source's height). -/
noncomputable def mkLightRay (startPos initialVel : Vector2f) (c : Color) : LightRay :=
  { path := [startPos]
    currentPosition := startPos
    currentVelocity := initialVel
    color := c
    impactParameter := |startPos.y - WINDOW_HEIGHT / 2|
    absorbed := false }

/-- One integration step, `LightRay::update(blackHole, deltaTime)`:
no-op when absorbed; capture check against the Schwarzschild radius;
otherwise inverse-square acceleration toward the hole scaled by the
deflection factor, velocity renormalized to light speed 200, position
integrated forward, and the new position appended to the path when it is
more than 2 units from the last recorded point. -/
noncomputable def LightRay.update (ray : LightRay) (blackHole : BlackHole)
    (deltaTime : ℝ) : LightRay :=
  if ray.absorbed then ray
  else
    let toBlackHole := Vector2f.sub blackHole.position ray.currentPosition
    let distance := toBlackHole.magnitude
    if distance < blackHole.schwarzschildRadius then
      { ray with absorbed := true }
    else
      let gravitationalConstant := blackHole.mass * 10000
      let acceleration :=
        toBlackHole.normalized.smul (gravitationalConstant / (distance * distance))
      let deflectionFactor :=
        1 + gravitationalConstant * 0.001 / (distance * ray.impactParameter + 1)
      let acceleration2 := acceleration.smul deflectionFactor
      let newVelocityRaw :=
        Vector2f.add ray.currentVelocity (acceleration2.smul deltaTime)
      let lightSpeed : ℝ := 200
      let newVelocity := newVelocityRaw.normalized.smul lightSpeed
      let newPosition :=
        Vector2f.add ray.currentPosition (newVelocity.smul deltaTime)
      let newPath :=
        match ray.path.getLast? with
        | none => ray.path ++ [newPosition]
        | some lastPt =>
            if (Vector2f.sub newPosition lastPt).magnitude > 2 then
              ray.path ++ [newPosition]
            else ray.path
      { ray with
          currentVelocity := newVelocity
          currentPosition := newPosition
          path := newPath }

/-- `LightRay::isOffScreen`: outside the window expanded by a 100-pixel
margin on every side, and not absorbed. -/
def LightRay.isOffScreen (ray : LightRay) : Prop :=
  (ray.currentPosition.x > WINDOW_WIDTH + 100 ∨
   ray.currentPosition.x < -100 ∨
   ray.currentPosition.y > WINDOW_HEIGHT + 100 ∨
   ray.currentPosition.y < -100) ∧ ray.absorbed = false

/-- The per-frame removal step: keep exactly the rays that are not
off-screen (`std::remove_if` over `isOffScreen`). -/
noncomputable def cullRays (rays : List LightRay) : List LightRay :=
  rays.filter (fun ray => @decide (¬ ray.isOffScreen) (Classical.propDecidable _))

/-- The simulation state (`class BlackHoleSimulation`): the owned gravity
source, the active ray collection, the spawn-cadence timer and the spawn
counter. -/
structure BlackHoleSimulation where
  blackHole : BlackHole
  lightRays : List LightRay
  raySpawnTimer : ℝ
  rayCount : ℕ

/-- The simulation constructor: black hole at the window center
`(WINDOW_WIDTH / 2, WINDOW_HEIGHT / 2)` with mass 50, no rays, timer and
counter at zero. -/
noncomputable def initialSim : BlackHoleSimulation :=
  { blackHole := mkBlackHole ⟨WINDOW_WIDTH / 2, WINDOW_HEIGHT / 2⟩ 50
    lightRays := []
    raySpawnTimer := 0
    rayCount := 0 }

/-- The ray constructed by `spawnLightRay` for a given spawn counter:
start `(-50, 50 + (rayCount % 15) * 50)`, velocity `(200, 0)`, color
`colors[rayCount % 7]`. -/
noncomputable def newRayFor (rayCount : ℕ) : LightRay :=
  mkLightRay ⟨-50, 50 + ((rayCount % 15 : ℕ) : ℝ) * 50⟩ ⟨200, 0⟩
    (colors.getD (rayCount % 7) colorWhite)

/-- `BlackHoleSimulation::spawnLightRay`: append the new ray and increment
the spawn counter. -/
noncomputable def spawnLightRay (s : BlackHoleSimulation) : BlackHoleSimulation :=
  { s with
      lightRays := s.lightRays ++ [newRayFor s.rayCount]
      rayCount := s.rayCount + 1 }

/-- `BlackHoleSimulation::update(deltaTime)`: accumulate the spawn timer;
when it exceeds 0.3 spawn one ray and reset the timer to 0; update every
ray; remove the off-screen rays. -/
noncomputable def BlackHoleSimulation.update (s : BlackHoleSimulation)
    (deltaTime : ℝ) : BlackHoleSimulation :=
  let timer := s.raySpawnTimer + deltaTime
  let s1 :=
    if timer > 0.3 then
      { spawnLightRay s with raySpawnTimer := 0 }
    else
      { s with raySpawnTimer := timer }
  let updated := s1.lightRays.map (fun ray => ray.update s1.blackHole deltaTime)
  { s1 with lightRays := cullRays updated }

/-- The R-key handler of `BlackHoleSimulation::handleEvents`: clear the ray
collection and zero the spawn counter, touching nothing else. -/
def BlackHoleSimulation.reset (s : BlackHoleSimulation) : BlackHoleSimulation :=
  { s with lightRays := [], rayCount := 0 }

/-- Iterated spawning from a fresh simulation. -/
noncomputable def spawnIter : ℕ → BlackHoleSimulation
  | 0 => initialSim
  | n + 1 => spawnLightRay (spawnIter n)

/-! ## Basic vector lemmas -/

theorem Vector2f.magnitude_nonneg (v : Vector2f) : 0 ≤ v.magnitude :=
  Real.sqrt_nonneg _

theorem Vector2f.magnitude_horizontal (a : ℝ) :
    Vector2f.magnitude ⟨a, 0⟩ = |a| := by
  simp [Vector2f.magnitude, Real.sqrt_mul_self_eq_abs]

theorem Vector2f.magnitude_zero_vec : Vector2f.magnitude ⟨0, 0⟩ = 0 := by
  simp [Vector2f.magnitude]

theorem Vector2f.normalized_horizontal_pos {a : ℝ} (h : 0 < a) :
    Vector2f.normalized ⟨a, 0⟩ = ⟨1, 0⟩ := by
  rw [Vector2f.normalized]
  rw [if_pos]
  · simp [Vector2f.magnitude_horizontal, abs_of_pos h, div_self (ne_of_gt h)]
  · rw [Vector2f.magnitude_horizontal]
    exact abs_pos.mpr (ne_of_gt h)

theorem Vector2f.normalized_horizontal_neg {a : ℝ} (h : a < 0) :
    Vector2f.normalized ⟨a, 0⟩ = ⟨-1, 0⟩ := by
  rw [Vector2f.normalized]
  rw [if_pos]
  · simp [Vector2f.magnitude_horizontal, abs_of_neg h]
    rw [div_neg, div_self (ne_of_lt h)]
  · rw [Vector2f.magnitude_horizontal]
    exact abs_pos.mpr (ne_of_lt h)

theorem Vector2f.normalized_of_mag_zero {v : Vector2f} (h : v.magnitude = 0) :
    v.normalized = ⟨0, 0⟩ := by
  rw [Vector2f.normalized, if_neg]
  rw [h]
  exact lt_irrefl 0

theorem Vector2f.magnitude_smul (v : Vector2f) (s : ℝ) :
    (v.smul s).magnitude = |s| * v.magnitude := by
  rw [Vector2f.smul, Vector2f.magnitude, Vector2f.magnitude]
  have h : v.x * s * (v.x * s) + v.y * s * (v.y * s)
      = s ^ 2 * (v.x * v.x + v.y * v.y) := by ring
  rw [h, Real.sqrt_mul (sq_nonneg s), Real.sqrt_sq_eq_abs]

theorem Vector2f.magnitude_normalized_of_pos {v : Vector2f}
    (h : 0 < v.magnitude) : v.normalized.magnitude = 1 := by
  rw [Vector2f.normalized, if_pos h]
  have hm : v.magnitude * v.magnitude = v.x * v.x + v.y * v.y := by
    rw [Vector2f.magnitude]
    exact Real.mul_self_sqrt (add_nonneg (mul_self_nonneg _) (mul_self_nonneg _))
  rw [Vector2f.magnitude]
  have h2 : v.x / v.magnitude * (v.x / v.magnitude)
      + v.y / v.magnitude * (v.y / v.magnitude)
      = (v.x * v.x + v.y * v.y) / (v.magnitude * v.magnitude) := by
    field_simp
  rw [h2, hm, div_self, Real.sqrt_one]
  rw [← hm]
  exact mul_ne_zero (ne_of_gt h) (ne_of_gt h)

/-! ## Branch lemmas for the ray update -/

theorem LightRay.update_absorbed {ray : LightRay} (bh : BlackHole) (dt : ℝ)
    (h : ray.absorbed = true) : ray.update bh dt = ray := by
  simp [LightRay.update, h]

theorem LightRay.update_capture {ray : LightRay} {bh : BlackHole} (dt : ℝ)
    (h1 : ray.absorbed = false)
    (h2 : (Vector2f.sub bh.position ray.currentPosition).magnitude
      < bh.schwarzschildRadius) :
    ray.update bh dt = { ray with absorbed := true } := by
  simp [LightRay.update, h1, h2]

theorem LightRay.update_absorbed_of_no_capture {ray : LightRay} {bh : BlackHole}
    (dt : ℝ) (h1 : ray.absorbed = false)
    (h2 : ¬ (Vector2f.sub bh.position ray.currentPosition).magnitude
      < bh.schwarzschildRadius) :
    (ray.update bh dt).absorbed = false := by
  simp [LightRay.update, h1, h2]

theorem LightRay.foldl_update_absorbed {ray : LightRay}
    (h : ray.absorbed = true) (l : List (BlackHole × ℝ)) :
    List.foldl (fun r p => LightRay.update r p.1 p.2) ray l = ray := by
  induction l with
  | nil => rfl
  | cons hd tl ih =>
      simp [List.foldl_cons, LightRay.update_absorbed hd.1 hd.2 h, ih]

/-! ## The non-absorbed, non-captured branch of the update, named -/

/-- The distance from a ray to the gravity source, as computed first in
`LightRay::update`. -/
noncomputable def LightRay.distanceTo (ray : LightRay) (bh : BlackHole) : ℝ :=
  (Vector2f.sub bh.position ray.currentPosition).magnitude

/-- The velocity after the acceleration integration step of
`LightRay::update`, before renormalization to the light speed. -/
noncomputable def LightRay.integratedVelocity (ray : LightRay) (bh : BlackHole)
    (dt : ℝ) : Vector2f :=
  Vector2f.add ray.currentVelocity
    ((((Vector2f.sub bh.position ray.currentPosition).normalized.smul
        (bh.mass * 10000 / (ray.distanceTo bh * ray.distanceTo bh))).smul
      (1 + bh.mass * 10000 * 0.001 / (ray.distanceTo bh * ray.impactParameter + 1))).smul
      dt)

/-- The renormalized velocity produced by `LightRay::update`. -/
noncomputable def LightRay.nextVelocity (ray : LightRay) (bh : BlackHole)
    (dt : ℝ) : Vector2f :=
  (ray.integratedVelocity bh dt).normalized.smul 200

/-- The position produced by `LightRay::update`. -/
noncomputable def LightRay.nextPosition (ray : LightRay) (bh : BlackHole)
    (dt : ℝ) : Vector2f :=
  Vector2f.add ray.currentPosition ((ray.nextVelocity bh dt).smul dt)

theorem LightRay.update_free (ray : LightRay) (bh : BlackHole) (dt : ℝ)
    (h1 : ray.absorbed = false)
    (h2 : ¬ (Vector2f.sub bh.position ray.currentPosition).magnitude
      < bh.schwarzschildRadius) :
    ray.update bh dt =
      { ray with
          currentVelocity := ray.nextVelocity bh dt
          currentPosition := ray.nextPosition bh dt
          path :=
            match ray.path.getLast? with
            | none => ray.path ++ [ray.nextPosition bh dt]
            | some lastPt =>
                if (Vector2f.sub (ray.nextPosition bh dt) lastPt).magnitude > 2 then
                  ray.path ++ [ray.nextPosition bh dt]
                else ray.path } := by
  rw [LightRay.update]
  simp only [h1, Bool.false_eq_true, if_false, h2, LightRay.nextPosition,
    LightRay.nextVelocity, LightRay.integratedVelocity, LightRay.distanceTo]

theorem Vector2f.normalized_of_y_zero_pos (v : Vector2f) (hy : v.y = 0)
    (hx : 0 < v.x) : v.normalized = ⟨1, 0⟩ := by
  obtain ⟨a, b⟩ := v
  simp only at hy hx
  subst hy
  exact Vector2f.normalized_horizontal_pos hx

/-! ## The direct-infall scenario of the spec's end-to-end test -/

/-- The gravity source of the end-to-end scenario: position `(600, 400)`,
mass 50 (the same values `BlackHoleSimulation`'s constructor uses). -/
noncomputable def simBH : BlackHole := mkBlackHole ⟨600, 400⟩ 50

theorem simBH_radius : simBH.schwarzschildRadius = 1 / 2 := by
  norm_num [simBH, mkBlackHole]

/-- One update of a ray sitting on the horizontal axis of the scenario:
position `(x, 400)`, velocity `(200, 0)`, impact parameter 0, not yet
absorbed and still at least the capture radius away.  The step moves the
ray 10/3 to the right and keeps velocity `(200, 0)`. -/
theorem horizontal_step (ray : LightRay) (x : ℝ)
    (hpos : ray.currentPosition = ⟨x, 400⟩)
    (hvel : ray.currentVelocity = ⟨200, 0⟩)
    (himp : ray.impactParameter = 0)
    (habs : ray.absorbed = false)
    (hx : x ≤ 1199 / 2) :
    ray.update simBH (1 / 60) =
      { ray with
          currentVelocity := ⟨200, 0⟩
          currentPosition := ⟨x + 10 / 3, 400⟩
          path :=
            match ray.path.getLast? with
            | none => ray.path ++ [⟨x + 10 / 3, 400⟩]
            | some lastPt =>
                if (Vector2f.sub ⟨x + 10 / 3, 400⟩ lastPt).magnitude > 2 then
                  ray.path ++ [⟨x + 10 / 3, 400⟩]
                else ray.path } := by
  have hxlt : (0 : ℝ) < 600 - x := by linarith
  have hd : Vector2f.sub simBH.position ray.currentPosition = ⟨600 - x, 0⟩ := by
    rw [hpos]
    simp [simBH, mkBlackHole, Vector2f.sub]
  have hdm : (Vector2f.sub simBH.position ray.currentPosition).magnitude = 600 - x := by
    rw [hd, Vector2f.magnitude_horizontal, abs_of_pos hxlt]
  have hnc : ¬ (Vector2f.sub simBH.position ray.currentPosition).magnitude
      < simBH.schwarzschildRadius := by
    rw [hdm, simBH_radius, not_lt]
    linarith
  have hy : (ray.integratedVelocity simBH (1 / 60)).y = 0 := by
    rw [LightRay.integratedVelocity, hd, hvel, himp,
      Vector2f.normalized_horizontal_pos hxlt]
    simp [Vector2f.smul, Vector2f.add]
  have hxpos : 0 < (ray.integratedVelocity simBH (1 / 60)).x := by
    rw [LightRay.integratedVelocity, LightRay.distanceTo, hdm, hd, hvel, himp,
      Vector2f.normalized_horizontal_pos hxlt]
    simp [Vector2f.smul, Vector2f.add, simBH, mkBlackHole]
    positivity
  have hnv : ray.nextVelocity simBH (1 / 60) = ⟨200, 0⟩ := by
    rw [LightRay.nextVelocity, Vector2f.normalized_of_y_zero_pos _ hy hxpos]
    simp [Vector2f.smul]
  have hnp : ray.nextPosition simBH (1 / 60) = ⟨x + 10 / 3, 400⟩ := by
    rw [LightRay.nextPosition, hnv, hpos]
    simp [Vector2f.smul, Vector2f.add]
    norm_num
  rw [LightRay.update_free ray simBH (1 / 60) habs hnc, hnv, hnp]

/-- The scenario ray after n updates: spawned at `(-50, 400)` with velocity
`(200, 0)` and stepped with `deltaTime = 1/60` against `simBH`. -/
noncomputable def c7ray : ℕ → LightRay
  | 0 => mkLightRay ⟨-50, 400⟩ ⟨200, 0⟩ colorRed
  | n + 1 => (c7ray n).update simBH (1 / 60)

/-- Distance of the scenario ray to the gravity source after n updates. -/
noncomputable def c7dist (n : ℕ) : ℝ :=
  (c7ray n).distanceTo simBH

/-- Pre-capture invariant of the direct infall: after n updates the ray is
at `(-50 + 10 n / 3, 400)`, still at velocity `(200, 0)`, impact parameter
0, not absorbed, the last recorded path point being the current position. -/
def c7inv (n : ℕ) (r : LightRay) : Prop :=
  r.currentPosition = ⟨-50 + 10 * n / 3, 400⟩ ∧
  r.currentVelocity = ⟨200, 0⟩ ∧
  r.impactParameter = 0 ∧
  r.absorbed = false ∧
  r.path.getLast? = some r.currentPosition

theorem c7_closed : ∀ n, n ≤ 195 → c7inv n (c7ray n) := by
  intro n
  induction n with
  | zero =>
      intro _
      refine ⟨?_, rfl, ?_, rfl, ?_⟩
      · show Vector2f.mk (-50) 400 = _
        norm_num
      · show |(400 : ℝ) - WINDOW_HEIGHT / 2| = 0
        norm_num [WINDOW_HEIGHT]
      · rfl
  | succ n ih =>
      intro hn
      obtain ⟨hp, hv, hi, ha, hl⟩ := ih (by omega)
      have hx : (-50 + 10 * n / 3 : ℝ) ≤ 1199 / 2 := by
        have hn194 : (n : ℝ) ≤ 194 := by
          exact_mod_cast (by omega : n ≤ 194)
        linarith
      have step := horizontal_step (c7ray n) (-50 + 10 * n / 3) hp hv hi ha hx
      have hstep : c7ray (n + 1) =
          { c7ray n with
              currentVelocity := ⟨200, 0⟩
              currentPosition := ⟨-50 + 10 * n / 3 + 10 / 3, 400⟩
              path := (c7ray n).path ++ [⟨-50 + 10 * n / 3 + 10 / 3, 400⟩] } := by
        rw [show c7ray (n + 1) = (c7ray n).update simBH (1 / 60) from rfl, step]
        rw [hp] at hl
        rw [hl]
        dsimp only
        have hsub : Vector2f.sub ⟨-50 + 10 * n / 3 + 10 / 3, 400⟩
            ⟨-50 + 10 * n / 3, 400⟩ = ⟨10 / 3, 0⟩ := by
          rw [Vector2f.sub]
          norm_num
        rw [hsub, Vector2f.magnitude_horizontal]
        rw [if_pos (by rw [abs_of_pos] <;> norm_num)]
      rw [hstep]
      refine ⟨?_, rfl, hi, ha, ?_⟩
      · show Vector2f.mk (-50 + 10 * n / 3 + 10 / 3) 400 = _
        have : (-50 + 10 * n / 3 + 10 / 3 : ℝ) = -50 + 10 * (n + 1 : ℕ) / 3 := by
          push_cast
          ring
        rw [this]
      · show ((c7ray n).path ++ [_]).getLast? = _
        rw [List.getLast?_concat]

theorem c7dist_eq {n : ℕ} (hn : n ≤ 195) : c7dist n = 650 - 10 * n / 3 := by
  obtain ⟨hp, _, _, _, _⟩ := c7_closed n hn
  have hle : (n : ℝ) ≤ 195 := by exact_mod_cast hn
  rw [c7dist, LightRay.distanceTo, hp]
  have hsub : Vector2f.sub simBH.position ⟨-50 + 10 * n / 3, 400⟩
      = ⟨650 - 10 * n / 3, 0⟩ := by
    rw [Vector2f.sub]
    show Vector2f.mk (simBH.position.x - _) (simBH.position.y - _) = _
    have hbx : simBH.position.x = 600 := rfl
    have hby : simBH.position.y = 400 := rfl
    rw [hbx, hby]
    norm_num
    ring
  rw [hsub, Vector2f.magnitude_horizontal, abs_of_nonneg (by linarith)]

theorem c7_absorbed_196 : (c7ray 196).absorbed = true := by
  obtain ⟨hp, _, _, ha, _⟩ := c7_closed 195 (by norm_num)
  have hdist : (Vector2f.sub simBH.position (c7ray 195).currentPosition).magnitude
      = 0 := by
    have := c7dist_eq (show 195 ≤ 195 by norm_num)
    rw [c7dist, LightRay.distanceTo] at this
    rw [this]
    norm_num
  have hcap : (Vector2f.sub simBH.position (c7ray 195).currentPosition).magnitude
      < simBH.schwarzschildRadius := by
    rw [hdist, simBH_radius]
    norm_num
  have : c7ray 196 = { c7ray 195 with absorbed := true } := by
    rw [show c7ray 196 = (c7ray 195).update simBH (1 / 60) from rfl]
    exact LightRay.update_capture (1 / 60) ha hcap
  rw [this]

theorem c7_absorbed_ge {n : ℕ} (hn : 196 ≤ n) : (c7ray n).absorbed = true := by
  obtain ⟨k, rfl⟩ : ∃ k, n = 196 + k := ⟨n - 196, by omega⟩
  induction k with
  | zero => exact c7_absorbed_196
  | succ k ih =>
      have hk := ih (by omega)
      rw [show c7ray (196 + (k + 1)) = (c7ray (196 + k)).update simBH (1 / 60)
        from rfl]
      rw [LightRay.update_absorbed simBH (1 / 60) hk]
      exact hk

/-! ## Spawn iteration -/

theorem spawnIter_spec : ∀ n, (spawnIter n).rayCount = n ∧
    (spawnIter n).lightRays = (List.range n).map newRayFor := by
  intro n
  induction n with
  | zero => exact ⟨rfl, rfl⟩
  | succ n ih =>
      obtain ⟨hc, hr⟩ := ih
      refine ⟨?_, ?_⟩
      · show (spawnLightRay (spawnIter n)).rayCount = n + 1
        rw [spawnLightRay, hc]
      · show (spawnLightRay (spawnIter n)).lightRays = _
        rw [spawnLightRay]
        dsimp only
        rw [hr, hc, List.range_succ, List.map_append]
        rfl

/-- Fallback ray for checked list access in closed statements. -/
noncomputable def dummyRay : LightRay :=
  mkLightRay ⟨0, 0⟩ ⟨0, 0⟩ colorWhite

theorem spawnIter_getD (n i : ℕ) (h : i < n) :
    (spawnIter n).lightRays.getD i dummyRay = newRayFor i := by
  obtain ⟨_, hr⟩ := spawnIter_spec n
  rw [hr, List.getD_eq_getElem?_getD, List.getElem?_map, List.getElem?_range h]
  rfl

/-! ## Path invariant -/

/-- The path bookkeeping invariant of a ray: the recorded path is nonempty
and any two consecutive recorded points are strictly more than 2 apart. -/
def pathInvariant (r : LightRay) : Prop :=
  r.path ≠ [] ∧ List.Chain' (fun p q => (Vector2f.sub q p).magnitude > 2) r.path

theorem mkLightRay_pathInvariant (sp vel : Vector2f) (c : Color) :
    pathInvariant (mkLightRay sp vel c) := by
  exact ⟨by simp [mkLightRay], by simp [mkLightRay]⟩

theorem update_path_preserves (ray : LightRay) (bh : BlackHole) (dt : ℝ)
    (h : pathInvariant ray) :
    pathInvariant (ray.update bh dt) ∧
      ∃ t, (ray.update bh dt).path = ray.path ++ t := by
  by_cases ha : ray.absorbed = true
  · rw [LightRay.update_absorbed bh dt ha]
    exact ⟨h, [], by simp⟩
  · have ha' : ray.absorbed = false := by
      simp only [Bool.not_eq_true] at ha
      exact ha
    by_cases hc : (Vector2f.sub bh.position ray.currentPosition).magnitude
        < bh.schwarzschildRadius
    · rw [LightRay.update_capture dt ha' hc]
      exact ⟨h, [], by simp⟩
    · rw [LightRay.update_free ray bh dt ha' hc]
      rcases hl : ray.path.getLast? with _ | lastPt
      · rw [List.getLast?_eq_none_iff] at hl
        exact absurd hl h.1
      · dsimp only
        split_ifs with hgt
        · refine ⟨⟨by simp, ?_⟩, [ray.nextPosition bh dt], rfl⟩
          rw [List.chain'_append]
          refine ⟨h.2, List.chain'_singleton _, ?_⟩
          intro p hp q hq
          rw [hl, Option.mem_def] at hp
          rw [List.head?_cons, Option.mem_def] at hq
          obtain rfl : lastPt = p := by injection hp
          obtain rfl : ray.nextPosition bh dt = q := by injection hq
          exact hgt
        · exact ⟨h, [], by simp⟩

theorem foldl_pathInvariant (r : LightRay) (h : pathInvariant r)
    (l : List (BlackHole × ℝ)) :
    pathInvariant (List.foldl (fun r p => LightRay.update r p.1 p.2) r l) := by
  induction l generalizing r with
  | nil => exact h
  | cons hd tl ih =>
      exact ih _ (update_path_preserves _ _ _ h).1

theorem mem_cullRays_of_absorbed {r : LightRay} {rays : List LightRay}
    (hm : r ∈ rays) (ha : r.absorbed = true) : r ∈ cullRays rays := by
  rw [cullRays, List.mem_filter]
  refine ⟨hm, ?_⟩
  have hno : ¬ r.isOffScreen := fun hoff => absurd hoff.2 (by simp [ha])
  exact @decide_eq_true _ (Classical.propDecidable _) hno

/-! ## The claims -/

/-- C1: an absorbed ray is frozen: update is the identity on it, for a
single call and for any sequence of calls with any gravity sources and
time steps; the transition to absorbed happens exactly when the distance
to the gravity source drops below the capture radius, and that transition
sets only the absorbed flag. -/
theorem claim_C1_absorbed_frozen (ray : LightRay) (bh : BlackHole) (dt : ℝ) :
    (ray.absorbed = true → ray.update bh dt = ray) ∧
    (ray.absorbed = true → ∀ l : List (BlackHole × ℝ),
      List.foldl (fun r p => LightRay.update r p.1 p.2) ray l = ray) ∧
    (ray.absorbed = false →
      (Vector2f.sub bh.position ray.currentPosition).magnitude
        < bh.schwarzschildRadius →
      ray.update bh dt = { ray with absorbed := true }) ∧
    (ray.absorbed = false →
      ¬ (Vector2f.sub bh.position ray.currentPosition).magnitude
        < bh.schwarzschildRadius →
      (ray.update bh dt).absorbed = false) :=
  ⟨fun h => LightRay.update_absorbed bh dt h,
   fun h l => LightRay.foldl_update_absorbed h l,
   fun h1 h2 => LightRay.update_capture dt h1 h2,
   fun h1 h2 => LightRay.update_absorbed_of_no_capture dt h1 h2⟩

/-- C1 witness: a concrete absorbed ray is left untouched by an update. -/
theorem claim_C1_witness :
    ({ mkLightRay ⟨0, 0⟩ ⟨0, 0⟩ colorRed with absorbed := true } : LightRay).absorbed
      = true ∧
    LightRay.update { mkLightRay ⟨0, 0⟩ ⟨0, 0⟩ colorRed with absorbed := true }
      simBH 1 = { mkLightRay ⟨0, 0⟩ ⟨0, 0⟩ colorRed with absorbed := true } :=
  ⟨rfl, (claim_C1_absorbed_frozen _ simBH 1).1 rfl⟩

/-- C2 counterexample: the ray constructed at (850, 400) with the standard
spawn velocity (200, 0), when updated against the scenario gravity source
with deltaTime 25/501, is not absorbed before or during the call, yet its
post-update velocity has magnitude 0, not 200: the acceleration
integration exactly cancels the velocity, and renormalizing the zero
vector yields the zero vector. -/
theorem claim_C2_counterexample :
    (mkLightRay ⟨850, 400⟩ ⟨200, 0⟩ colorRed).absorbed = false ∧
    ((mkLightRay ⟨850, 400⟩ ⟨200, 0⟩ colorRed).update simBH (25 / 501)).absorbed
      = false ∧
    ((mkLightRay ⟨850, 400⟩ ⟨200, 0⟩ colorRed).update simBH
      (25 / 501)).currentVelocity.magnitude = 0 := by
  have hd : Vector2f.sub simBH.position
      (mkLightRay ⟨850, 400⟩ ⟨200, 0⟩ colorRed).currentPosition = ⟨-250, 0⟩ := by
    show Vector2f.sub ⟨600, 400⟩ ⟨850, 400⟩ = _
    rw [Vector2f.sub]
    norm_num
  have hdm : (Vector2f.sub simBH.position
      (mkLightRay ⟨850, 400⟩ ⟨200, 0⟩ colorRed).currentPosition).magnitude = 250 := by
    rw [hd, Vector2f.magnitude_horizontal]
    norm_num
  have hnc : ¬ (Vector2f.sub simBH.position
      (mkLightRay ⟨850, 400⟩ ⟨200, 0⟩ colorRed).currentPosition).magnitude
      < simBH.schwarzschildRadius := by
    rw [hdm, simBH_radius]
    norm_num
  have himp : (mkLightRay ⟨850, 400⟩ ⟨200, 0⟩ colorRed).impactParameter = 0 := by
    show |(400 : ℝ) - WINDOW_HEIGHT / 2| = 0
    norm_num [WINDOW_HEIGHT]
  have hiv : (mkLightRay ⟨850, 400⟩ ⟨200, 0⟩ colorRed).integratedVelocity simBH
      (25 / 501) = ⟨0, 0⟩ := by
    rw [LightRay.integratedVelocity, LightRay.distanceTo, hdm, hd, himp,
      Vector2f.normalized_horizontal_neg (show (-250 : ℝ) < 0 by norm_num)]
    show Vector2f.add ⟨200, 0⟩ _ = _
    rw [show simBH.mass = 50 from rfl]
    simp only [Vector2f.smul, Vector2f.add]
    norm_num
  have hnv : (mkLightRay ⟨850, 400⟩ ⟨200, 0⟩ colorRed).nextVelocity simBH
      (25 / 501) = ⟨0, 0⟩ := by
    rw [LightRay.nextVelocity, hiv,
      Vector2f.normalized_of_mag_zero Vector2f.magnitude_zero_vec]
    simp [Vector2f.smul]
  rw [LightRay.update_free _ simBH (25 / 501) rfl hnc]
  exact ⟨rfl, rfl, by rw [show ({ mkLightRay ⟨850, 400⟩ ⟨200, 0⟩ colorRed with
    currentVelocity := (mkLightRay ⟨850, 400⟩ ⟨200, 0⟩ colorRed).nextVelocity simBH (25 / 501),
    currentPosition := (mkLightRay ⟨850, 400⟩ ⟨200, 0⟩ colorRed).nextPosition simBH (25 / 501),
    path := _ } : LightRay).currentVelocity =
      (mkLightRay ⟨850, 400⟩ ⟨200, 0⟩ colorRed).nextVelocity simBH (25 / 501) from rfl,
    hnv, Vector2f.magnitude_zero_vec]⟩

/-- C2 amended: whenever a ray is not absorbed before or during an update,
its post-update velocity has magnitude exactly 200 — unless the
integration step happens to cancel the velocity to the exact zero vector,
in which case the renormalized velocity is the zero vector (magnitude 0).
Only the direction of a nonzero renormalized velocity can differ from the
incoming one, never its speed. -/
theorem claim_C2_speed_renormalized (ray : LightRay) (bh : BlackHole) (dt : ℝ)
    (h1 : ray.absorbed = false)
    (h2 : ¬ (Vector2f.sub bh.position ray.currentPosition).magnitude
      < bh.schwarzschildRadius) :
    (ray.update bh dt).currentVelocity.magnitude = 200 ∨
      (ray.update bh dt).currentVelocity = ⟨0, 0⟩ := by
  rw [LightRay.update_free ray bh dt h1 h2]
  show (ray.nextVelocity bh dt).magnitude = 200 ∨ ray.nextVelocity bh dt = ⟨0, 0⟩
  rw [LightRay.nextVelocity]
  by_cases hm : 0 < (ray.integratedVelocity bh dt).magnitude
  · left
    rw [Vector2f.magnitude_smul, Vector2f.magnitude_normalized_of_pos hm]
    norm_num
  · right
    have h0 : (ray.integratedVelocity bh dt).magnitude = 0 :=
      le_antisymm (not_lt.mp hm) (Vector2f.magnitude_nonneg _)
    rw [Vector2f.normalized_of_mag_zero h0]
    simp [Vector2f.smul]

/-- C2 witness: a freshly spawned scenario ray, far from the gravity
source, satisfies the hypotheses, and the dichotomy holds for it. -/
theorem claim_C2_witness :
    (mkLightRay ⟨-50, 400⟩ ⟨200, 0⟩ colorRed).absorbed = false ∧
    ¬ (Vector2f.sub simBH.position
        (mkLightRay ⟨-50, 400⟩ ⟨200, 0⟩ colorRed).currentPosition).magnitude
      < simBH.schwarzschildRadius ∧
    (((mkLightRay ⟨-50, 400⟩ ⟨200, 0⟩ colorRed).update simBH
        (1 / 60)).currentVelocity.magnitude = 200 ∨
      ((mkLightRay ⟨-50, 400⟩ ⟨200, 0⟩ colorRed).update simBH
        (1 / 60)).currentVelocity = ⟨0, 0⟩) := by
  have hd : Vector2f.sub simBH.position
      (mkLightRay ⟨-50, 400⟩ ⟨200, 0⟩ colorRed).currentPosition = ⟨650, 0⟩ := by
    show Vector2f.sub ⟨600, 400⟩ ⟨-50, 400⟩ = _
    rw [Vector2f.sub]
    norm_num
  have hnc : ¬ (Vector2f.sub simBH.position
      (mkLightRay ⟨-50, 400⟩ ⟨200, 0⟩ colorRed).currentPosition).magnitude
      < simBH.schwarzschildRadius := by
    rw [hd, Vector2f.magnitude_horizontal, simBH_radius,
      abs_of_pos (show (0 : ℝ) < 650 by norm_num)]
    norm_num
  exact ⟨rfl, hnc, claim_C2_speed_renormalized _ simBH (1 / 60) rfl hnc⟩

/-- C3 counterexample: the constructor freezes the impact parameter from
the window mid-height, not from the gravity source it is later simulated
against: a ray starting at height 100 gets impact parameter 300 even when
the gravity source sits at that same height 100 (where the claimed
formula gives 0). -/
theorem claim_C3_counterexample :
    (mkLightRay ⟨-50, 100⟩ ⟨200, 0⟩ colorRed).impactParameter ≠
      |(Vector2f.mk (-50) 100).y - (mkBlackHole ⟨600, 100⟩ 50).position.y| := by
  show |(100 : ℝ) - WINDOW_HEIGHT / 2| ≠ |(100 : ℝ) - 100|
  norm_num [WINDOW_HEIGHT]

/-- C3 amended: the spawned ray's frozen impact parameter equals
`|startPos.y - WINDOW_HEIGHT / 2|`; this coincides with
`|startPos.y - gravitySource.position.y|` for the simulation's own
gravity source (which sits at the window mid-height), but not for an
arbitrary gravity source. -/
theorem claim_C3_impact_parameter (startPos initialVel : Vector2f) (c : Color) :
    (mkLightRay startPos initialVel c).impactParameter
      = |startPos.y - WINDOW_HEIGHT / 2| ∧
    (mkLightRay startPos initialVel c).impactParameter
      = |startPos.y - initialSim.blackHole.position.y| :=
  ⟨rfl, rfl⟩

/-- C4 counterexample: after 16 consecutive spawns from a fresh
simulation, the 16th spawned ray does NOT have the same color as the 1st:
the palette index is 15 mod 7 = 1 (green), not 0 (red). -/
theorem claim_C4_counterexample :
    ((spawnIter 16).lightRays.getD 15 dummyRay).color ≠
      ((spawnIter 16).lightRays.getD 0 dummyRay).color := by
  rw [spawnIter_getD 16 15 (by norm_num), spawnIter_getD 16 0 (by norm_num)]
  show colorGreen ≠ colorRed
  decide

/-- C4 amended: after 16 consecutive spawns from a fresh simulation the
16th spawned ray reuses the 1st ray's vertical start offset (the spawn
counter wraps mod 15), but its color is the palette's second entry
(green, from 15 mod 7 = 1) while the 1st ray's is the first entry (red). -/
theorem claim_C4_wraparound :
    ((spawnIter 16).lightRays.getD 15 dummyRay).currentPosition.y =
      ((spawnIter 16).lightRays.getD 0 dummyRay).currentPosition.y ∧
    ((spawnIter 16).lightRays.getD 0 dummyRay).color = colorRed ∧
    ((spawnIter 16).lightRays.getD 15 dummyRay).color = colorGreen := by
  rw [spawnIter_getD 16 15 (by norm_num), spawnIter_getD 16 0 (by norm_num)]
  refine ⟨?_, rfl, rfl⟩
  show (50 + ((15 % 15 : ℕ) : ℝ) * 50) = (50 + ((0 % 15 : ℕ) : ℝ) * 50)
  norm_num

/-- C5: the deflection-factor denominator `distance * impactParameter + 1`
of `LightRay::update` is strictly positive (hence nonzero) for every
constructed ray against every gravity source — in particular when the
impact parameter is exactly 0 — because the distance is a square root and
the impact parameter an absolute value; and normalizing a zero-magnitude
vector yields the zero vector rather than dividing by zero. -/
theorem claim_C5_division_guard (startPos initialVel : Vector2f) (c : Color)
    (bh : BlackHole) :
    (0 < (mkLightRay startPos initialVel c).distanceTo bh *
        (mkLightRay startPos initialVel c).impactParameter + 1) ∧
    ((mkLightRay startPos initialVel c).distanceTo bh *
        (mkLightRay startPos initialVel c).impactParameter + 1 ≠ 0) ∧
    (∀ v : Vector2f, v.magnitude = 0 → v.normalized = ⟨0, 0⟩) := by
  have hd : 0 ≤ (mkLightRay startPos initialVel c).distanceTo bh :=
    Vector2f.magnitude_nonneg _
  have hi : 0 ≤ (mkLightRay startPos initialVel c).impactParameter :=
    abs_nonneg _
  have h1 : 0 < (mkLightRay startPos initialVel c).distanceTo bh *
      (mkLightRay startPos initialVel c).impactParameter + 1 := by
    have := mul_nonneg hd hi
    linarith
  exact ⟨h1, ne_of_gt h1, fun v hv => Vector2f.normalized_of_mag_zero hv⟩

/-- C5 witness: the zero vector has magnitude 0 and normalizes to the zero
vector. -/
theorem claim_C5_witness :
    Vector2f.magnitude ⟨0, 0⟩ = 0 ∧ Vector2f.normalized ⟨0, 0⟩ = ⟨0, 0⟩ :=
  ⟨Vector2f.magnitude_zero_vec,
    (claim_C5_division_guard ⟨0, 0⟩ ⟨0, 0⟩ colorRed simBH).2.2 ⟨0, 0⟩
      Vector2f.magnitude_zero_vec⟩

/-- C6: `isOffScreen` holds exactly when the ray is not absorbed and its
position lies outside the 1200 x 800 frame expanded by the 100-pixel
margin; it is false for every absorbed ray, so the removal step keeps
every absorbed ray; and it is false for every freshly spawned ray. -/
theorem claim_C6_offscreen (ray : LightRay) :
    (ray.isOffScreen ↔
      (ray.absorbed = false ∧
        (ray.currentPosition.x > 1200 + 100 ∨ ray.currentPosition.x < -100 ∨
         ray.currentPosition.y > 800 + 100 ∨ ray.currentPosition.y < -100))) ∧
    (ray.absorbed = true → ¬ ray.isOffScreen) ∧
    (∀ rays : List LightRay, ray ∈ rays → ray.absorbed = true →
      ray ∈ cullRays rays) ∧
    (∀ n : ℕ, ¬ (newRayFor n).isOffScreen) := by
  refine ⟨?_, ?_, ?_, ?_⟩
  · simp only [LightRay.isOffScreen, WINDOW_WIDTH, WINDOW_HEIGHT]
    tauto
  · intro h hoff
    exact absurd hoff.2 (by simp [h])
  · intro rays hm ha
    exact mem_cullRays_of_absorbed hm ha
  · intro n hoff
    obtain ⟨hdisj, _⟩ := hoff
    have hy0 : (0 : ℝ) ≤ ((n % 15 : ℕ) : ℝ) := Nat.cast_nonneg _
    have hyb : ((n % 15 : ℕ) : ℝ) ≤ 14 := by
      exact_mod_cast Nat.le_of_lt_succ (Nat.mod_lt n (by norm_num))
    have hx : (newRayFor n).currentPosition.x = -50 := rfl
    have hy : (newRayFor n).currentPosition.y
        = 50 + ((n % 15 : ℕ) : ℝ) * 50 := rfl
    rcases hdisj with h | h | h | h
    · rw [hx] at h
      norm_num [WINDOW_WIDTH] at h
    · rw [hx] at h
      norm_num at h
    · rw [hy] at h
      rw [WINDOW_HEIGHT] at h
      nlinarith
    · rw [hy] at h
      nlinarith

/-- C6 witness: an absorbed ray parked far outside the expanded frame is
still not off-screen. -/
theorem claim_C6_witness :
    ({ mkLightRay ⟨2000, 400⟩ ⟨200, 0⟩ colorBlue with absorbed := true }
      : LightRay).absorbed = true ∧
    ¬ ({ mkLightRay ⟨2000, 400⟩ ⟨200, 0⟩ colorBlue with absorbed := true }
      : LightRay).isOffScreen :=
  ⟨rfl, (claim_C6_offscreen _).2.1 rfl⟩

/-- C7: in the direct-infall scenario (gravity source (600, 400) of mass
50, capture radius 1/2; ray spawned at (-50, 400) with velocity (200, 0),
impact parameter 0; updates with deltaTime 1/60) the distance to the
gravity source strictly decreases on every one of the first 195 steps,
the ray is not absorbed through step 195, and from step 196 on the
capture check has fired and the ray stays absorbed forever. -/
theorem claim_C7_direct_infall :
    simBH.schwarzschildRadius = 1 / 2 ∧
    (∀ n, n < 195 → c7dist (n + 1) < c7dist n) ∧
    (∀ n, n ≤ 195 → (c7ray n).absorbed = false) ∧
    (∀ n, 196 ≤ n → (c7ray n).absorbed = true) := by
  refine ⟨simBH_radius, ?_, ?_, ?_⟩
  · intro n hn
    rw [c7dist_eq (by omega : n + 1 ≤ 195), c7dist_eq (by omega : n ≤ 195)]
    have hcast : ((n : ℝ)) < ((n + 1 : ℕ) : ℝ) := by
      push_cast
      linarith
    push_cast
    linarith
  · intro n hn
    exact (c7_closed n hn).2.2.2.1
  · intro n hn
    exact c7_absorbed_ge hn

/-- C7 witness: the first step of the scenario strictly shrinks the
distance. -/
theorem claim_C7_witness :
    (0 : ℕ) < 195 ∧ c7dist 1 < c7dist 0 :=
  ⟨by norm_num, claim_C7_direct_infall.2.1 0 (by norm_num)⟩

/-- C8: the R-key reset empties the ray collection and zeroes the spawn
counter while leaving the gravity source and the spawn-cadence timer
unchanged; the next spawn after a reset therefore appends exactly the ray
that the very first spawn of a fresh simulation appends. -/
theorem claim_C8_reset (s : BlackHoleSimulation) :
    s.reset.lightRays = [] ∧
    s.reset.rayCount = 0 ∧
    s.reset.blackHole = s.blackHole ∧
    s.reset.raySpawnTimer = s.raySpawnTimer ∧
    (spawnLightRay s.reset).lightRays = (spawnLightRay initialSim).lightRays :=
  ⟨rfl, rfl, rfl, rfl, rfl⟩

/-- C9: per tick the spawn counter increases by at most one: whenever the
accumulated timer exceeds the 0.3-second interval, exactly one ray is
spawned and the timer is set back to zero (reset, not decremented), for
any deltaTime however large; otherwise no ray is spawned and the timer
keeps its accumulated value. -/
theorem claim_C9_spawn_cadence (s : BlackHoleSimulation) (deltaTime : ℝ) :
    (s.raySpawnTimer + deltaTime > 0.3 →
      (s.update deltaTime).rayCount = s.rayCount + 1 ∧
      (s.update deltaTime).raySpawnTimer = 0) ∧
    (¬ s.raySpawnTimer + deltaTime > 0.3 →
      (s.update deltaTime).rayCount = s.rayCount ∧
      (s.update deltaTime).raySpawnTimer = s.raySpawnTimer + deltaTime) := by
  constructor
  · intro h
    rw [BlackHoleSimulation.update]
    simp only [h, if_pos]
    exact ⟨rfl, trivial⟩
  · intro h
    rw [BlackHoleSimulation.update]
    simp only [h, if_neg, if_false]
    exact ⟨trivial, trivial⟩

/-- C9 witness: one whole second on a fresh simulation exceeds the
interval, spawns exactly one ray and zeroes the timer. -/
theorem claim_C9_witness :
    initialSim.raySpawnTimer + 1 > 0.3 ∧
    (initialSim.update 1).rayCount = initialSim.rayCount + 1 ∧
    (initialSim.update 1).raySpawnTimer = 0 := by
  have h : initialSim.raySpawnTimer + 1 > 0.3 := by
    rw [show initialSim.raySpawnTimer = 0 from rfl]
    norm_num
  exact ⟨h, (claim_C9_spawn_cadence initialSim 1).1 h⟩

/-- C10: the recorded path of a constructed ray is exactly the spawn
point, so it is nonempty with consecutive points more than 2 apart
(vacuously); every update preserves that invariant and only ever appends
to the path; hence the invariant holds after any sequence of updates. -/
theorem claim_C10_path_invariant (startPos initialVel : Vector2f) (c : Color) :
    pathInvariant (mkLightRay startPos initialVel c) ∧
    (mkLightRay startPos initialVel c).path = [startPos] ∧
    (∀ (ray : LightRay) (bh : BlackHole) (dt : ℝ), pathInvariant ray →
      pathInvariant (ray.update bh dt) ∧
      ∃ t, (ray.update bh dt).path = ray.path ++ t) ∧
    (∀ l : List (BlackHole × ℝ),
      pathInvariant (List.foldl (fun r p => LightRay.update r p.1 p.2)
        (mkLightRay startPos initialVel c) l)) :=
  ⟨mkLightRay_pathInvariant _ _ _, rfl,
   fun ray bh dt h => update_path_preserves ray bh dt h,
   fun l => foldl_pathInvariant _ (mkLightRay_pathInvariant _ _ _) l⟩

/-- C10 witness: a concrete spawned ray satisfies the invariant and one
update against the scenario gravity source keeps it. -/
theorem claim_C10_witness :
    pathInvariant (mkLightRay ⟨-50, 400⟩ ⟨200, 0⟩ colorYellow) ∧
    pathInvariant ((mkLightRay ⟨-50, 400⟩ ⟨200, 0⟩ colorYellow).update simBH
      (1 / 60)) :=
  ⟨mkLightRay_pathInvariant _ _ _,
    ((claim_C10_path_invariant ⟨-50, 400⟩ ⟨200, 0⟩ colorYellow).2.2.1 _ simBH
      (1 / 60) (mkLightRay_pathInvariant _ _ _)).1⟩
